import Mathlib

/-!
Verification development for the QA queue service.

Shallow embedding of the Python sources:
* `app/utils/document_processor.py` (text extraction, chunking)
* `app/qa/services.py` (answer generation with fallback)
* `app/qa/vector_store.py` (Qdrant / Chroma vector stores)
* `app/tasks/document_tasks.py`, `app/tasks/qa_tasks.py` (ingestion, QA jobs)
* `app/utils/task_monitor.py` (task cancellation)

Python strings are modelled as `List Char`/`String`, Python ints as `Int`
(or `Nat` where the source guarantees non-negativity), exceptions as
`Except`, and the unbounded `while` loop of the chunker by explicit fuel
(`none` = the loop did not finish within the given fuel, for every fuel =
divergence).  External collaborators (the embedding model, the vector
database engines, hash functions, byte decoders) are abstracted as
function parameters, constrained only by their documented interface
contracts.
-/

set_option autoImplicit false

namespace QAService

/-! ### Python string primitives (character-list model) -/

/-- Whitespace characters stripped by Python's `str.strip()` (ASCII part,
which is all the sources ever produce). -/
def pyIsSpace (c : Char) : Bool :=
  c == ' ' || c == '\t' || c == '\n' || c == '\x0d' || c == '\x0b' || c == '\x0c'

/-- Python `str.strip()`: drop whitespace from both ends. -/
def pyStrip (l : List Char) : List Char :=
  ((l.dropWhile pyIsSpace).reverse.dropWhile pyIsSpace).reverse

/-- Normalise a Python index (possibly negative) for a sequence of length
`n`, as Python slicing does: negative indices count from the end, and
results are clamped into `[0, n]`. -/
def pyIndex (n : Nat) (i : Int) : Nat :=
  if i < 0 then ((n : Int) + i).toNat else min i.toNat n

/-- Python slice `l[i:j]` (default step). -/
def pySlice (l : List Char) (i j : Int) : List Char :=
  (l.take (pyIndex l.length j)).drop (pyIndex l.length i)

/-- Python `str.rfind(ch, i, j)`: the highest index `k` with
`i ≤ k < j` (after Python index normalisation) such that `l[k] = ch`,
or `-1` when there is none. -/
def pyRfind (l : List Char) (ch : Char) (i j : Int) : Int :=
  let a := pyIndex l.length i
  let b := pyIndex l.length j
  let hits := (List.range l.length).filter
    (fun k => decide (a ≤ k) && decide (k < b) && (l.getD k ' ' == ch))
  match hits.getLast? with
  | some k => (k : Int)
  | none => -1

/-- Python `s[:n]` on a `String`. -/
def strTake (s : String) (n : Nat) : String :=
  ⟨s.data.take n⟩

/-- Python `str.strip()` on a `String`. -/
def strStrip (s : String) : String :=
  ⟨pyStrip s.data⟩

/-! ### `split_text_into_chunks` (document_processor.py, lines 50-79)

The Python `while` loop is modelled with explicit fuel; `none` means the
loop did not return within `fuel` iterations. -/

/-- The window end for one iteration of the `split_text_into_chunks`
loop: `end = start + chunk_size`, then moved back to just after the last
sentence terminator or newline found in the final (up to) 100 characters
of the window, provided that break point lies past `start` and the raw
end is still inside the text. -/
def chunkEnd (text : List Char) (chunk_size : Int) (start : Int) : Int :=
  let e0 : Int := start + chunk_size
  if e0 < (text.length : Int) then
    let last_period := pyRfind text '.' (max start (e0 - 100)) e0
    let last_newline := pyRfind text '\n' (max start (e0 - 100)) e0
    let break_point := max last_period last_newline
    if break_point > start then break_point + 1 else e0
  else e0

/-- `chunk = text[start:end].strip()` for one loop iteration. -/
def chunkAt (text : List Char) (chunk_size : Int) (start : Int) : List Char :=
  pyStrip (pySlice text start (chunkEnd text chunk_size start))

/-- The `while start < len(text)` loop of `split_text_into_chunks`.
State: `start` (an `Int`, as in Python it can go negative) and the
accumulated `chunks`. -/
def chunksLoop (text : List Char) (chunk_size overlap : Int) :
    Nat → Int → List (List Char) → Option (List (List Char))
  | 0, _, _ => none
  | fuel + 1, start, chunks =>
    if start < (text.length : Int) then
      if chunkEnd text chunk_size start - overlap ≥ (text.length : Int) then
        some (if (chunkAt text chunk_size start).isEmpty then chunks
              else chunks ++ [chunkAt text chunk_size start])
      else
        chunksLoop text chunk_size overlap fuel
          (chunkEnd text chunk_size start - overlap)
          (if (chunkAt text chunk_size start).isEmpty then chunks
           else chunks ++ [chunkAt text chunk_size start])
    else some chunks

/-- `split_text_into_chunks(text, chunk_size, overlap)`.  Faithful to the
source: the short-text branch returns `[text]` verbatim (unstripped), the
long branch runs the sliding-window loop, and there is no clamping of
`overlap` below `chunk_size`. -/
def split_text_into_chunks (text : List Char) (chunk_size overlap : Int)
    (fuel : Nat) : Option (List (List Char)) :=
  if (text.length : Int) ≤ chunk_size then some [text]
  else chunksLoop text chunk_size overlap fuel 0 []

/-! ### Helper lemmas about `pyStrip` -/

theorem dropWhile_dropWhile_self (p : Char → Bool) (l : List Char) :
    (l.dropWhile p).dropWhile p = l.dropWhile p := by
  induction l with
  | nil => simp
  | cons a t ih =>
    by_cases h : p a
    · simp [List.dropWhile_cons, h, ih]
    · simp [List.dropWhile_cons, h]

theorem length_dropWhile_le (p : Char → Bool) (l : List Char) :
    (l.dropWhile p).length ≤ l.length := by
  induction l with
  | nil => simp
  | cons a t ih =>
    by_cases h : p a
    · simp only [List.dropWhile_cons, if_pos h, List.length_cons]
      omega
    · simp [List.dropWhile_cons, h]

theorem dropWhile_fix_of_append (p : Char → Bool) (s u : List Char)
    (h : (s ++ u).dropWhile p = s ++ u) : s.dropWhile p = s := by
  cases s with
  | nil => simp
  | cons a t =>
    by_cases ha : p a
    · exfalso
      rw [List.cons_append, List.dropWhile_cons, if_pos ha] at h
      have hlen := congrArg List.length h
      have hle := length_dropWhile_le p (t ++ u)
      simp [List.length_append] at hlen hle
      omega
    · simp [List.dropWhile_cons, ha]

theorem pyStrip_idem (l : List Char) : pyStrip (pyStrip l) = pyStrip l := by
  unfold pyStrip
  set m := l.dropWhile pyIsSpace with hm
  -- the left side of the result is already stripped
  have hmfix : m.dropWhile pyIsSpace = m := by
    rw [hm]; exact dropWhile_dropWhile_self _ _
  set s := (m.reverse.dropWhile pyIsSpace).reverse with hs
  -- `s` is a prefix of `m`, so its left side is still stripped
  have hsplit : m.reverse.takeWhile pyIsSpace ++ m.reverse.dropWhile pyIsSpace
      = m.reverse := List.takeWhile_append_dropWhile pyIsSpace m.reverse
  have hm_eq : m = s ++ (m.reverse.takeWhile pyIsSpace).reverse := by
    conv_lhs => rw [← List.reverse_reverse m, ← hsplit]
    rw [List.reverse_append, hs]
  have hsfix : s.dropWhile pyIsSpace = s := by
    apply dropWhile_fix_of_append pyIsSpace s ((m.reverse.takeWhile pyIsSpace).reverse)
    rw [← hm_eq]; exact hmfix
  rw [hsfix]
  have hrev : s.reverse = m.reverse.dropWhile pyIsSpace := by
    rw [hs]; simp
  rw [hrev, dropWhile_dropWhile_self, ← hrev]
  simp

theorem isEmpty_false_ne_nil {l : List Char} (h : l.isEmpty = false) : l ≠ [] := by
  cases l with
  | nil => simp [List.isEmpty] at h
  | cons a t => simp

/-! ### Chunker theorems -/

/-- Every chunk the sliding-window loop ever appends is a stripped,
non-empty slice; hence every chunk in a *completed* loop run is fixed by
`pyStrip` and non-empty, provided the accumulator already was. -/
theorem chunksLoop_mem_stripped (text : List Char) (cs ov : Int) :
    ∀ (fuel : Nat) (start : Int) (acc res : List (List Char)),
      chunksLoop text cs ov fuel start acc = some res →
      (∀ c ∈ acc, pyStrip c = c ∧ c ≠ []) →
      ∀ c ∈ res, pyStrip c = c ∧ c ≠ [] := by
  intro fuel
  induction fuel with
  | zero =>
    intro start acc res h _
    simp [chunksLoop] at h
  | succ n ih =>
    intro start acc res h hacc
    have hchunks1 : ∀ c ∈ (if (chunkAt text cs start).isEmpty then acc
        else acc ++ [chunkAt text cs start]), pyStrip c = c ∧ c ≠ [] := by
      intro c hc
      cases hP : (chunkAt text cs start).isEmpty with
      | true => rw [hP] at hc; simp at hc; exact hacc c hc
      | false =>
        rw [hP] at hc
        simp only [if_neg Bool.false_ne_true, List.mem_append, List.mem_singleton] at hc
        rcases hc with hc | hc
        · exact hacc c hc
        · subst hc
          exact ⟨pyStrip_idem _, isEmpty_false_ne_nil hP⟩
    rw [chunksLoop] at h
    by_cases hbound : start < (text.length : Int)
    · rw [if_pos hbound] at h
      by_cases hdone : chunkEnd text cs start - ov ≥ (text.length : Int)
      · rw [if_pos hdone] at h
        injection h with h'
        intro c hc
        rw [← h'] at hc
        exact hchunks1 c hc
      · rw [if_neg hdone] at h
        exact ih _ _ _ h hchunks1
    · rw [if_neg hbound] at h
      injection h with h'
      intro c hc
      rw [← h'] at hc
      exact hacc c hc

/-- C3: on input `"abcdef"` with `chunk_size = 5` and `overlap = 5`, every
iteration of the loop recomputes `start = 5 - 5 = 0`: no forward
progress, so the loop never returns, for any amount of fuel.  The code
has no clamp of `overlap` below `chunk_size`. -/
theorem chunksLoop_abcdef_no_progress :
    ∀ (f : Nat) (acc : List (List Char)),
      chunksLoop "abcdef".data 5 5 f 0 acc = none := by
  intro f
  induction f with
  | zero => intro acc; rfl
  | succ n ih =>
    intro acc
    have hstep : chunksLoop "abcdef".data 5 5 (n + 1) 0 acc
        = chunksLoop "abcdef".data 5 5 n 0 (acc ++ ["abcde".data]) := by
      rw [chunksLoop]
      rw [if_pos (by decide), if_neg (by decide)]
      rw [if_neg (by decide)]
      rw [show chunkEnd "abcdef".data 5 0 - 5 = (0 : Int) by decide]
      rw [show chunkAt "abcdef".data 5 0 = "abcde".data by decide]
    rw [hstep]
    exact ih _

/-- C3: the claim says `split_text_into_chunks` terminates for every
choice of `chunk_size` and `overlap` because overlap is clamped below
chunk size.  The code contains no such clamp: on text `"abcdef"` with
`chunk_size = 5`, `overlap = 5` the loop makes no forward progress
(`start` stays `0`), so the function diverges — it returns within no
finite fuel. -/
theorem split_text_into_chunks_no_clamp_diverges :
    ∀ fuel : Nat, split_text_into_chunks "abcdef".data 5 5 fuel = none := by
  intro fuel
  unfold split_text_into_chunks
  rw [if_neg (by decide)]
  exact chunksLoop_abcdef_no_progress fuel []

/-- C4 counterexample: for the whitespace text `" "` (length 1 ≤
chunk size 1000) the function returns the chunk `" "` verbatim — not the
trimmed input (`pyStrip " " = ""`), and that chunk is empty after
trimming, contradicting both halves of the claim. -/
theorem split_text_into_chunks_untrimmed_counterexample :
    split_text_into_chunks " ".data 1000 200 1 = some [" ".data] ∧
    pyStrip " ".data = [] ∧
    [" ".data] ≠ [pyStrip " ".data] := by
  refine ⟨by decide, by decide, by decide⟩

/-- C4 amended: for text with length ≤ `chunk_size` the function returns
exactly one chunk equal to the input *verbatim* (not trimmed, possibly
empty after trimming); every chunk produced by the sliding-window loop
(text longer than `chunk_size`) is fixed by `pyStrip` and non-empty,
hence non-empty after trimming. -/
theorem split_text_into_chunks_trim_behavior (text : List Char)
    (cs ov : Int) (fuel : Nat) :
    ((text.length : Int) ≤ cs →
      split_text_into_chunks text cs ov fuel = some [text]) ∧
    (cs < (text.length : Int) →
      ∀ res, split_text_into_chunks text cs ov fuel = some res →
        ∀ c ∈ res, pyStrip c = c ∧ c ≠ []) := by
  constructor
  · intro h
    unfold split_text_into_chunks
    rw [if_pos h]
  · intro h res hres
    unfold split_text_into_chunks at hres
    rw [if_neg (not_le.mpr h)] at hres
    exact chunksLoop_mem_stripped text cs ov fuel 0 [] res hres (by simp)

/-- Witness for `split_text_into_chunks_trim_behavior`: the short branch
at `" a "`, and a completed three-chunk run on `"abcdef"` with
`chunk_size = 3`, `overlap = 1`. -/
theorem split_text_into_chunks_trim_behavior_witness :
    split_text_into_chunks " a ".data 1000 200 1 = some [" a ".data] ∧
    (∀ c ∈ ["abc".data, "cde".data, "ef".data], pyStrip c = c ∧ c ≠ []) := by
  constructor
  · exact (split_text_into_chunks_trim_behavior " a ".data 1000 200 1).1 (by decide)
  · exact (split_text_into_chunks_trim_behavior "abcdef".data 3 1 3).2
      (by decide) ["abc".data, "cde".data, "ef".data] (by decide)

/-! ### Answer generation (`app/qa/services.py`)

`SimpleLLM.generate_answer` is pure keyword templating.
`OllamaLLM.generate_answer` performs one HTTP POST; the outcome of that
external call is abstracted as an `OllamaOutcome` value (the only thing
the surrounding Python code can observe about it). -/

/-- Python `str.lower()` (character-wise, which is exact for the ASCII
keywords the code compares against). -/
def pyLower (s : String) : String :=
  ⟨s.data.map Char.toLower⟩

/-- `leadsWith needle hay`: `hay` starts with `needle`. -/
def leadsWith : List Char → List Char → Bool
  | [], _ => true
  | _ :: _, [] => false
  | a :: t, b :: u => a == b && leadsWith t u

/-- Python's `needle in hay` substring test. -/
def hasSub (needle : List Char) : List Char → Bool
  | [] => needle.isEmpty
  | b :: u => leadsWith needle (b :: u) || hasSub needle u

/-- Python `word in text` on `String`s. -/
def strContains (text word : String) : Bool :=
  hasSub word.data text.data

/-- `SimpleLLM.generate_answer` (services.py, lines 13-31). -/
def simple_generate_answer (question : String) (context : List String) : String :=
  if context.isEmpty then
    "I don't have enough information to answer this question. Please upload relevant documents first."
  else
    -- combined_context = "\n\n".join(context[:3]); question_lower = question.lower()
    if ["what", "define", "definition"].any
        (fun w => strContains (pyLower question) w) then
      "Based on the provided context:\n\n"
        ++ strTake (String.intercalate "\n\n" (context.take 3)) 800 ++ "..."
    else if ["how", "explain", "process"].any
        (fun w => strContains (pyLower question) w) then
      "Here's how it works according to the documents:\n\n"
        ++ strTake (String.intercalate "\n\n" (context.take 3)) 800 ++ "..."
    else if ["when", "time", "date"].any
        (fun w => strContains (pyLower question) w) then
      "According to the information available:\n\n"
        ++ strTake (String.intercalate "\n\n" (context.take 3)) 800 ++ "..."
    else
      "Based on the relevant information I found:\n\n"
        ++ strTake (String.intercalate "\n\n" (context.take 3)) 800 ++ "..."

/-- The observable outcome of the `requests.post` call to the Ollama
backend: a timeout, a connection error, some other raised exception, or
an HTTP response with a status code and (for JSON bodies) the optional
`"response"` field. -/
inductive OllamaOutcome where
  | timeout
  | connectionError
  | otherException (msg : String)
  | httpResponse (status : Nat) (responseField : Option String)
deriving DecidableEq

/-- The fixed prompt template built by `OllamaLLM.generate_answer`
(services.py, lines 63-70). -/
def ollama_prompt (question combined_context : String) : String :=
  "Based on the following context, please answer the question. If the context doesn't contain enough information to answer the question, please say so clearly. Be concise and accurate.\n\nContext:\n"
    ++ combined_context ++ "\n\nQuestion: " ++ question ++ "\n\nAnswer:"

/-- `OllamaLLM.generate_answer` (services.py, lines 54-114), with the
network call abstracted by its `OllamaOutcome`.  All
`requests.exceptions.Timeout` / `ConnectionError` / generic `Exception`
raises are caught and fall back to `SimpleLLM`; a non-200 status also
falls back; a 200 response returns the stripped `"response"` field when
non-empty, else a canned message. -/
def ollama_generate_answer (outcome : OllamaOutcome) (question : String)
    (context : List String) : String :=
  if context.isEmpty then
    "I don't have enough information to answer this question. Please upload relevant documents first."
  else
    match outcome with
    | .httpResponse status responseField =>
      if status = 200 then
        if strStrip (responseField.getD "") ≠ "" then
          strStrip (responseField.getD "")
        else
          "I couldn't generate a proper answer. Please try rephrasing your question."
      else simple_generate_answer question context
    | .timeout => simple_generate_answer question context
    | .connectionError => simple_generate_answer question context
    | .otherException _ => simple_generate_answer question context

/-- A backend outcome counted as a failure by the claim: transport error,
timeout, any other exception, or a non-success HTTP status. -/
def ollama_failed : OllamaOutcome → Bool
  | .timeout => true
  | .connectionError => true
  | .otherException _ => true
  | .httpResponse status _ => status ≠ 200

theorem append_ne_empty_left {a : String} (b : String) (h : a ≠ "") :
    a ++ b ≠ "" := by
  intro he
  apply h
  have hd := congrArg String.data he
  rw [String.data_append] at hd
  simp only [List.append_eq_nil] at hd
  cases a
  simp_all

theorem simple_generate_answer_ne_empty (question : String)
    (context : List String) (h : context ≠ []) :
    simple_generate_answer question context ≠ "" := by
  unfold simple_generate_answer
  have hne : ¬(context.isEmpty = true) := by
    cases context with
    | nil => exact absurd rfl h
    | cons a t => simp
  rw [if_neg hne]
  split
  · exact append_ne_empty_left _ (append_ne_empty_left _ (by decide))
  · split
    · exact append_ne_empty_left _ (append_ne_empty_left _ (by decide))
    · split
      · exact append_ne_empty_left _ (append_ne_empty_left _ (by decide))
      · exact append_ne_empty_left _ (append_ne_empty_left _ (by decide))

/-- C2: for every question and non-empty context, when the Ollama call
fails (timeout, connection error, other exception, or non-success HTTP
status), `generate_answer` returns exactly the keyword-templated
`SimpleLLM` answer, which is a non-empty string; no exception escapes
(the embedding is a total function). -/
theorem ollama_generate_answer_fallback_total (outcome : OllamaOutcome)
    (question : String) (context : List String)
    (hctx : context ≠ []) (hfail : ollama_failed outcome = true) :
    ollama_generate_answer outcome question context
      = simple_generate_answer question context ∧
    ollama_generate_answer outcome question context ≠ "" := by
  have hne : ¬(context.isEmpty = true) := by
    cases context with
    | nil => exact absurd rfl hctx
    | cons a t => simp
  have hfb : ollama_generate_answer outcome question context
      = simple_generate_answer question context := by
    unfold ollama_generate_answer
    rw [if_neg hne]
    cases outcome with
    | timeout => rfl
    | connectionError => rfl
    | otherException msg => rfl
    | httpResponse status responseField =>
      have hstatus : status ≠ 200 := by
        simpa [ollama_failed] using hfail
      dsimp only
      rw [if_neg hstatus]
  exact ⟨hfb, hfb ▸ simple_generate_answer_ne_empty question context hctx⟩

/-- Witness for `ollama_generate_answer_fallback_total` at a concrete
timed-out call with one context chunk. -/
theorem ollama_generate_answer_fallback_total_witness :
    ollama_generate_answer .timeout "what is python" ["Python is a language."]
      = simple_generate_answer "what is python" ["Python is a language."] ∧
    ollama_generate_answer .timeout "what is python" ["Python is a language."] ≠ "" :=
  ollama_generate_answer_fallback_total .timeout "what is python"
    ["Python is a language."] (by decide) (by decide)

/-! ### Keyed stores

Both vector-database backends address chunk records by a string
identifier.  `upsert_by` models Qdrant's documented `upsert` (replace the
record with the same id, else insert); `add_skip` models Chroma 0.4.x
`collection.add` (an insert of an already-existing embedding id is
ignored).  `count_key store k` counts the records whose key is `k`. -/

section KeyedStore

variable {α : Type} (key : α → String)

/-- Insert-or-replace by key (Qdrant `upsert` semantics). -/
def upsert_by (p : α) : List α → List α
  | [] => [p]
  | q :: rest => if key q = key p then p :: rest else q :: upsert_by p rest

/-- Upsert a batch of records, in order. -/
def upsert_all (store : List α) (ps : List α) : List α :=
  ps.foldl (fun s p => upsert_by key p s) store

/-- Insert-unless-present by key (Chroma 0.4.x `add` semantics: an add of
an existing embedding id is ignored). -/
def add_skip (store : List α) (e : α) : List α :=
  if store.any (fun x => key x == key e) then store else store ++ [e]

/-- Add a batch of records, in order. -/
def add_skip_all (store : List α) (es : List α) : List α :=
  es.foldl (add_skip key) store

/-- Number of records in `store` whose key is `k`. -/
def count_key (store : List α) (k : String) : Nat :=
  (store.filter (fun x => key x == k)).length

/-- Every key occurs at most once. -/
def NodupKeys (store : List α) : Prop :=
  ∀ k, count_key key store k ≤ 1

end KeyedStore

/-! ### Vector stores (`app/qa/vector_store.py`)

The embedding model (`SentenceTransformer.encode`) is abstracted as a
function `embed : String → Emb` for an arbitrary vector type `Emb`; the
hash-derived UUID of `QdrantVectorStore._generate_uuid_from_string` is
abstracted as `uuid_of : String → String` (a deterministic function of
the string id, as in the source). -/

/-- The deterministic chunk identity key
`user_{user_id}_doc_{document_id}_chunk_{i}`. -/
def string_key (user_id document_id : Int) (i : Nat) : String :=
  s!"user_{user_id}_doc_{document_id}_chunk_{i}"

/-- `chunk[:200] + "..." if len(chunk) > 200 else chunk`. -/
def preview_of (chunk : String) : String :=
  if chunk.length > 200 then strTake chunk 200 ++ "..." else chunk

/-- The payload attached to each Qdrant point (vector_store.py,
lines 108-115). -/
structure QdrantPayload where
  content : String
  document_id : Int
  user_id : Int
  chunk_index : Nat
  text_preview : String
  string_id : String
deriving DecidableEq

/-- A Qdrant point: surrogate UUID id, embedding vector, payload. -/
structure QdrantPoint (Emb : Type) where
  id : String
  vector : Emb
  payload : QdrantPayload
deriving DecidableEq

/-- One `FieldCondition(key=..., match=MatchValue(value=...))` of a
Qdrant `Filter(must=[...])`. -/
structure FieldCondition where
  key : String
  value : Int
deriving DecidableEq

/-- Look a filter key up in a point payload, as the Qdrant engine matches
`FieldCondition`s against payload fields. -/
def payload_field (p : QdrantPayload) (key : String) : Option Int :=
  if key = "user_id" then some p.user_id
  else if key = "document_id" then some p.document_id
  else none

/-- A payload satisfies a `must` filter iff every condition matches. -/
def matches_filter (p : QdrantPayload) (must : List FieldCondition) : Bool :=
  must.all (fun c => payload_field p c.key == some c.value)

/-- The filter built by `QdrantVectorStore.search_similar_chunks`
(vector_store.py, lines 131-138): `must = [user_id == value]`. -/
def qdrant_user_filter (user_id : Int) : List FieldCondition :=
  [⟨"user_id", user_id⟩]

/-- The formatted result dict (vector_store.py, lines 150-161). -/
structure QdrantSearchResult where
  content : String
  document_id : Int
  user_id : Int
  chunk_index : Nat
  text_preview : String
  score : Int
deriving DecidableEq

/-- Formatting of one scored point into a result dict; a plain projection
of the stored payload, no filtering. -/
def qdrant_format {Emb : Type} (r : QdrantPoint Emb × Int) : QdrantSearchResult :=
  { content := r.1.payload.content
    document_id := r.1.payload.document_id
    user_id := r.1.payload.user_id
    chunk_index := r.1.payload.chunk_index
    text_preview := r.1.payload.text_preview
    score := r.2 }

/-- The external Qdrant engine's `search` endpoint: from the stored
points, a query vector, a `must` filter and a limit, it returns scored
points. -/
def QdrantEngine (Emb : Type) : Type :=
  List (QdrantPoint Emb) → Emb → List FieldCondition → Nat → List (QdrantPoint Emb × Int)

/-- The documented contract of Qdrant's filtered search: every returned
point is a stored point and satisfies the filter sent with the query. -/
def qdrant_engine_ok {Emb : Type} (engine : QdrantEngine Emb) : Prop :=
  ∀ pts qv must limit, ∀ r ∈ engine pts qv must limit,
    r.1 ∈ pts ∧ matches_filter r.1.payload must = true

/-- `QdrantVectorStore.search_similar_chunks` (vector_store.py,
lines 125-163): embed the query, send it together with the user filter
and the limit to the engine, and format every returned point. -/
def qdrant_search_similar_chunks {Emb : Type} (engine : QdrantEngine Emb)
    (embed : String → Emb) (pts : List (QdrantPoint Emb)) (query : String)
    (user_id : Int) (top_k : Nat) : List QdrantSearchResult :=
  (engine pts (embed query) (qdrant_user_filter user_id) top_k).map qdrant_format

/-- `for i, (chunk, embedding) in enumerate(...)` of
`QdrantVectorStore.add_chunks` (vector_store.py, lines 100-117),
starting at index `i`. -/
def qdrant_build_points {Emb : Type} (embed : String → Emb)
    (uuid_of : String → String) (document_id user_id : Int) :
    Nat → List String → List (QdrantPoint Emb)
  | _, [] => []
  | i, chunk :: rest =>
    { id := uuid_of (string_key user_id document_id i)
      vector := embed chunk
      payload :=
        { content := chunk
          document_id := document_id
          user_id := user_id
          chunk_index := i
          text_preview := preview_of chunk
          string_id := string_key user_id document_id i } }
      :: qdrant_build_points embed uuid_of document_id user_id (i + 1) rest

/-- `QdrantVectorStore.add_chunks` (vector_store.py, lines 90-123):
build the points and `upsert` them. -/
def qdrant_add_chunks {Emb : Type} (embed : String → Emb)
    (uuid_of : String → String) (store : List (QdrantPoint Emb))
    (chunks : List String) (document_id user_id : Int) : List (QdrantPoint Emb) :=
  if chunks.isEmpty then store
  else upsert_all QdrantPoint.id store
    (qdrant_build_points embed uuid_of document_id user_id 0 chunks)

/-- The metadata stored with each Chroma record (vector_store.py,
lines 229-237). -/
structure ChromaMetadata where
  document_id : Int
  user_id : Int
  chunk_index : Nat
  text_preview : String
deriving DecidableEq

/-- One record of the Chroma collection. -/
structure ChromaEntry (Emb : Type) where
  id : String
  embedding : Emb
  document : String
  metadata : ChromaMetadata
deriving DecidableEq

/-- Look a `where` key up in a Chroma record's metadata. -/
def chroma_field (m : ChromaMetadata) (key : String) : Option Int :=
  if key = "user_id" then some m.user_id
  else if key = "document_id" then some m.document_id
  else none

/-- A metadata record satisfies a conjunctive `where` clause. -/
def chroma_where_matches (m : ChromaMetadata) (w : List (String × Int)) : Bool :=
  w.all (fun kv => chroma_field m kv.1 == some kv.2)

/-- The external Chroma engine's `query` endpoint: entries, query vector,
`where` clause, `n_results`; returns entries with distances. -/
def ChromaEngine (Emb : Type) : Type :=
  List (ChromaEntry Emb) → Emb → List (String × Int) → Nat → List (ChromaEntry Emb × Int)

/-- The documented contract of Chroma's filtered query: every returned
entry is stored and satisfies the `where` clause sent with the query. -/
def chroma_engine_ok {Emb : Type} (engine : ChromaEngine Emb) : Prop :=
  ∀ entries qv w limit, ∀ r ∈ engine entries qv w limit,
    r.1 ∈ entries ∧ chroma_where_matches r.1.metadata w = true

/-- The formatted Chroma result dict (vector_store.py, lines 260-267). -/
structure ChromaSearchResult where
  content : String
  metadata : ChromaMetadata
  distance : Option Int
deriving DecidableEq

/-- Formatting of one Chroma query hit; a plain projection. -/
def chroma_format {Emb : Type} (r : ChromaEntry Emb × Int) : ChromaSearchResult :=
  { content := r.1.document, metadata := r.1.metadata, distance := some r.2 }

/-- `ChromaVectorStore.search_similar_chunks` (vector_store.py,
lines 247-269): embed the query, query the collection with
`where={"user_id": user_id}` and `n_results=top_k`, format every hit. -/
def chroma_search_similar_chunks {Emb : Type} (engine : ChromaEngine Emb)
    (embed : String → Emb) (entries : List (ChromaEntry Emb)) (query : String)
    (user_id : Int) (top_k : Nat) : List ChromaSearchResult :=
  (engine entries (embed query) [("user_id", user_id)] top_k).map chroma_format

/-- The ids/metadatas/documents built by `ChromaVectorStore.add_chunks`
(vector_store.py, lines 217-245), starting at index `i`. -/
def chroma_build_entries {Emb : Type} (embed : String → Emb)
    (document_id user_id : Int) : Nat → List String → List (ChromaEntry Emb)
  | _, [] => []
  | i, chunk :: rest =>
    { id := string_key user_id document_id i
      embedding := embed chunk
      document := chunk
      metadata :=
        { document_id := document_id
          user_id := user_id
          chunk_index := i
          text_preview := preview_of chunk } }
      :: chroma_build_entries embed document_id user_id (i + 1) rest

/-- `ChromaVectorStore.add_chunks`: build the records and `add` them
(Chroma 0.4.x `add`: an existing id is left in place, never duplicated). -/
def chroma_add_chunks {Emb : Type} (embed : String → Emb)
    (store : List (ChromaEntry Emb)) (chunks : List String)
    (document_id user_id : Int) : List (ChromaEntry Emb) :=
  if chunks.isEmpty then store
  else add_skip_all ChromaEntry.id store
    (chroma_build_entries embed document_id user_id 0 chunks)

/-- Reference Qdrant engine: keep the points matching the filter, take
the first `limit` (scores arbitrary).  Witnesses that the engine
contract is satisfiable. -/
def qdrant_ref_engine {Emb : Type} : QdrantEngine Emb :=
  fun pts _ must limit =>
    ((pts.filter (fun p => matches_filter p.payload must)).take limit).map
      (fun p => (p, 0))

theorem qdrant_ref_engine_ok {Emb : Type} :
    qdrant_engine_ok (qdrant_ref_engine : QdrantEngine Emb) := by
  intro pts qv must limit r hr
  simp only [qdrant_ref_engine, List.mem_map] at hr
  obtain ⟨p, hp, rfl⟩ := hr
  have hp' := List.mem_of_mem_take hp
  exact ⟨(List.mem_filter.1 hp').1, (List.mem_filter.1 hp').2⟩

/-- Reference Chroma engine, analogous to `qdrant_ref_engine`. -/
def chroma_ref_engine {Emb : Type} : ChromaEngine Emb :=
  fun entries _ w limit =>
    ((entries.filter (fun e => chroma_where_matches e.metadata w)).take limit).map
      (fun e => (e, 0))

theorem chroma_ref_engine_ok {Emb : Type} :
    chroma_engine_ok (chroma_ref_engine : ChromaEngine Emb) := by
  intro entries qv w limit r hr
  simp only [chroma_ref_engine, List.mem_map] at hr
  obtain ⟨e, he, rfl⟩ := hr
  have he' := List.mem_of_mem_take he
  exact ⟨(List.mem_filter.1 he').1, (List.mem_filter.1 he').2⟩

/-- C1: with any backend engine honouring its documented filtered-search
contract, `search_similar_chunks` issued for user `a` returns only
results whose stored `user_id` is `a` — no chunk of any other user `b` is
ever returned — and, by definition, the `user_id` filter is part of the
query handed to the engine while the result formatting is a plain `map`
(no application-side post-filtering).  Both the Qdrant and the Chroma
store are covered. -/
theorem search_similar_chunks_user_isolation {Emb : Type}
    (qengine : QdrantEngine Emb) (cengine : ChromaEngine Emb)
    (hq : qdrant_engine_ok qengine) (hc : chroma_engine_ok cengine)
    (embed : String → Emb) (pts : List (QdrantPoint Emb))
    (entries : List (ChromaEntry Emb)) (query : String) (a : Int) (k : Nat) :
    (∀ r ∈ qdrant_search_similar_chunks qengine embed pts query a k,
       r.user_id = a) ∧
    (∀ b : Int, b ≠ a →
      ∀ r ∈ qdrant_search_similar_chunks qengine embed pts query a k,
        r.user_id ≠ b) ∧
    (qdrant_search_similar_chunks qengine embed pts query a k
      = (qengine pts (embed query) (qdrant_user_filter a) k).map qdrant_format) ∧
    (∀ r ∈ chroma_search_similar_chunks cengine embed entries query a k,
       r.metadata.user_id = a) ∧
    (∀ b : Int, b ≠ a →
      ∀ r ∈ chroma_search_similar_chunks cengine embed entries query a k,
        r.metadata.user_id ≠ b) ∧
    (chroma_search_similar_chunks cengine embed entries query a k
      = (cengine entries (embed query) [("user_id", a)] k).map chroma_format) := by
  have hquid : ∀ r ∈ qdrant_search_similar_chunks qengine embed pts query a k,
      r.user_id = a := by
    intro r hr
    unfold qdrant_search_similar_chunks at hr
    obtain ⟨pr, hpr, rfl⟩ := List.mem_map.1 hr
    have hmatch := (hq pts (embed query) (qdrant_user_filter a) k pr hpr).2
    simp [matches_filter, qdrant_user_filter, payload_field] at hmatch
    simpa [qdrant_format] using hmatch
  have hcuid : ∀ r ∈ chroma_search_similar_chunks cengine embed entries query a k,
      r.metadata.user_id = a := by
    intro r hr
    unfold chroma_search_similar_chunks at hr
    obtain ⟨er, her, rfl⟩ := List.mem_map.1 hr
    have hmatch := (hc entries (embed query) [("user_id", a)] k er her).2
    simp [chroma_where_matches, chroma_field] at hmatch
    simpa [chroma_format] using hmatch
  refine ⟨hquid, ?_, rfl, hcuid, ?_, rfl⟩
  · intro b hb r hr
    rw [hquid r hr]
    exact fun h => hb h.symm
  · intro b hb r hr
    rw [hcuid r hr]
    exact fun h => hb h.symm

/-- Witness for `search_similar_chunks_user_isolation`: the reference
engines over stores holding one chunk of user `1` and one of user `2`,
searching as user `1`. -/
theorem search_similar_chunks_user_isolation_witness :
    (∀ r ∈ qdrant_search_similar_chunks (qdrant_ref_engine : QdrantEngine Unit)
        (fun _ => ())
        [⟨"idA", (), ⟨"cA", 7, 1, 0, "cA", "sA"⟩⟩,
         ⟨"idB", (), ⟨"cB", 8, 2, 0, "cB", "sB"⟩⟩] "query" 1 5,
       r.user_id = 1) ∧
    (∀ b : Int, b ≠ 1 →
      ∀ r ∈ qdrant_search_similar_chunks (qdrant_ref_engine : QdrantEngine Unit)
          (fun _ => ())
          [⟨"idA", (), ⟨"cA", 7, 1, 0, "cA", "sA"⟩⟩,
           ⟨"idB", (), ⟨"cB", 8, 2, 0, "cB", "sB"⟩⟩] "query" 1 5,
        r.user_id ≠ b) ∧
    (qdrant_search_similar_chunks (qdrant_ref_engine : QdrantEngine Unit) (fun _ => ())
        [⟨"idA", (), ⟨"cA", 7, 1, 0, "cA", "sA"⟩⟩,
         ⟨"idB", (), ⟨"cB", 8, 2, 0, "cB", "sB"⟩⟩] "query" 1 5
      = (qdrant_ref_engine
          [⟨"idA", (), ⟨"cA", 7, 1, 0, "cA", "sA"⟩⟩,
           ⟨"idB", (), ⟨"cB", 8, 2, 0, "cB", "sB"⟩⟩] ()
          (qdrant_user_filter 1) 5).map qdrant_format) ∧
    (∀ r ∈ chroma_search_similar_chunks (chroma_ref_engine : ChromaEngine Unit)
        (fun _ => ())
        [⟨"kA", (), "dA", ⟨7, 1, 0, "dA"⟩⟩, ⟨"kB", (), "dB", ⟨8, 2, 0, "dB"⟩⟩]
        "query" 1 5,
       r.metadata.user_id = 1) ∧
    (∀ b : Int, b ≠ 1 →
      ∀ r ∈ chroma_search_similar_chunks (chroma_ref_engine : ChromaEngine Unit)
          (fun _ => ())
          [⟨"kA", (), "dA", ⟨7, 1, 0, "dA"⟩⟩, ⟨"kB", (), "dB", ⟨8, 2, 0, "dB"⟩⟩]
          "query" 1 5,
        r.metadata.user_id ≠ b) ∧
    (chroma_search_similar_chunks (chroma_ref_engine : ChromaEngine Unit) (fun _ => ())
        [⟨"kA", (), "dA", ⟨7, 1, 0, "dA"⟩⟩, ⟨"kB", (), "dB", ⟨8, 2, 0, "dB"⟩⟩]
        "query" 1 5
      = (chroma_ref_engine
          [⟨"kA", (), "dA", ⟨7, 1, 0, "dA"⟩⟩, ⟨"kB", (), "dB", ⟨8, 2, 0, "dB"⟩⟩]
          () [("user_id", 1)] 5).map chroma_format) :=
  search_similar_chunks_user_isolation qdrant_ref_engine chroma_ref_engine
    qdrant_ref_engine_ok chroma_ref_engine_ok (fun _ => ())
    [⟨"idA", (), ⟨"cA", 7, 1, 0, "cA", "sA"⟩⟩,
     ⟨"idB", (), ⟨"cB", 8, 2, 0, "cB", "sB"⟩⟩]
    [⟨"kA", (), "dA", ⟨7, 1, 0, "dA"⟩⟩, ⟨"kB", (), "dB", ⟨8, 2, 0, "dB"⟩⟩]
    "query" 1 5

/-! ### Keyed-store lemmas (towards add-chunks idempotence) -/

section KeyedStoreLemmas

variable {α : Type} (key : α → String)

theorem count_key_cons (a : α) (s : List α) (k : String) :
    count_key key (a :: s) k
      = (if key a = k then 1 else 0) + count_key key s k := by
  simp only [count_key, List.filter_cons]
  split
  · next h =>
    rw [if_pos (by simpa using h)]
    simp only [List.length_cons]
    omega
  · next h =>
    rw [if_neg (by simpa using h)]
    simp

theorem nodup_keys_tail {a : α} {s : List α} (h : NodupKeys key (a :: s)) :
    NodupKeys key s := by
  intro k
  have := h k
  rw [count_key_cons] at this
  omega

theorem count_zero_not_mem {s : List α} {k : String}
    (h : count_key key s k = 0) {q : α} (hq : q ∈ s) : key q ≠ k := by
  intro he
  have hmem : q ∈ s.filter (fun x => key x == k) :=
    List.mem_filter.2 ⟨hq, by simp [he]⟩
  rw [count_key, List.length_eq_zero] at h
  simp [h] at hmem

theorem count_pos_of_mem {s : List α} {q : α} (hq : q ∈ s) :
    1 ≤ count_key key s (key q) := by
  have hmem : q ∈ s.filter (fun x => key x == key q) :=
    List.mem_filter.2 ⟨hq, by simp⟩
  have := List.length_pos.2 (List.ne_nil_of_mem hmem)
  simpa [count_key] using this

theorem count_pos_exists {s : List α} {k : String}
    (h : 1 ≤ count_key key s k) : ∃ q ∈ s, key q = k := by
  rw [count_key] at h
  have hne : s.filter (fun x => key x == k) ≠ [] := by
    intro he
    rw [he] at h
    simp at h
  obtain ⟨q, hq⟩ := List.exists_mem_of_ne_nil _ hne
  exact ⟨q, (List.mem_filter.1 hq).1, by simpa using (List.mem_filter.1 hq).2⟩

theorem upsert_count_self {s : List α} (p : α)
    (h : count_key key s (key p) ≤ 1) :
    count_key key (upsert_by key p s) (key p) = 1 := by
  induction s with
  | nil => simp [upsert_by, count_key_cons, count_key]
  | cons q rest ih =>
    rw [count_key_cons] at h
    by_cases hq : key q = key p
    · rw [upsert_by, if_pos hq, count_key_cons, if_pos rfl]
      rw [if_pos hq] at h
      omega
    · rw [upsert_by, if_neg hq, count_key_cons, if_neg hq]
      rw [if_neg hq] at h
      rw [ih (by omega)]

theorem upsert_count_other {s : List α} (p : α) {k : String}
    (hk : k ≠ key p) :
    count_key key (upsert_by key p s) k = count_key key s k := by
  induction s with
  | nil => simp [upsert_by, count_key_cons, count_key, Ne.symm hk]
  | cons q rest ih =>
    by_cases hq : key q = key p
    · rw [upsert_by, if_pos hq, count_key_cons, count_key_cons, hq]
    · rw [upsert_by, if_neg hq, count_key_cons, count_key_cons, ih]

theorem upsert_nodup {s : List α} (p : α) (h : NodupKeys key s) :
    NodupKeys key (upsert_by key p s) := by
  intro k
  by_cases hk : k = key p
  · rw [hk, upsert_count_self key p (h (key p))]
  · rw [upsert_count_other key p hk]
    exact h k

theorem mem_upsert {s : List α} {p q : α}
    (h : q ∈ upsert_by key p s) : q = p ∨ q ∈ s := by
  induction s with
  | nil =>
    rw [upsert_by] at h
    simp at h
    exact Or.inl h
  | cons a rest ih =>
    by_cases ha : key a = key p
    · rw [upsert_by, if_pos ha] at h
      rcases List.mem_cons.1 h with h | h
      · exact Or.inl h
      · exact Or.inr (List.mem_cons_of_mem a h)
    · rw [upsert_by, if_neg ha] at h
      rcases List.mem_cons.1 h with h | h
      · exact Or.inr (h ▸ List.mem_cons_self a rest)
      · rcases ih h with h | h
        · exact Or.inl h
        · exact Or.inr (List.mem_cons_of_mem a h)

theorem upsert_unique {s : List α} {p q : α} (h : NodupKeys key s)
    (hq : q ∈ upsert_by key p s) (hk : key q = key p) : q = p := by
  induction s with
  | nil =>
    rw [upsert_by] at hq
    simpa using hq
  | cons a rest ih =>
    by_cases ha : key a = key p
    · rw [upsert_by, if_pos ha] at hq
      rcases List.mem_cons.1 hq with hq | hq
      · exact hq
      · exfalso
        have hcount := h (key p)
        rw [count_key_cons, if_pos ha] at hcount
        have hz : count_key key rest (key p) = 0 := by omega
        exact count_zero_not_mem key hz hq hk
    · rw [upsert_by, if_neg ha] at hq
      rcases List.mem_cons.1 hq with hq | hq
      · exact absurd (hq ▸ hk) ha
      · exact ih (nodup_keys_tail key h) hq

theorem upsert_eq_self {s : List α} {p : α}
    (hex : ∃ q ∈ s, key q = key p)
    (huniq : ∀ q ∈ s, key q = key p → q = p) :
    upsert_by key p s = s := by
  induction s with
  | nil => simp at hex
  | cons a rest ih =>
    by_cases ha : key a = key p
    · rw [upsert_by, if_pos ha, huniq a (List.mem_cons_self a rest) ha]
    · rw [upsert_by, if_neg ha]
      obtain ⟨q, hq, hqk⟩ := hex
      rcases List.mem_cons.1 hq with hq | hq
      · exact absurd (hq ▸ hqk) ha
      · rw [ih ⟨q, hq, hqk⟩
          (fun q' hq' hk' => huniq q' (List.mem_cons_of_mem a hq') hk')]

theorem upsert_all_nodup {s : List α} (ps : List α) (h : NodupKeys key s) :
    NodupKeys key (upsert_all key s ps) := by
  induction ps generalizing s with
  | nil => exact h
  | cons p rest ih => exact ih (upsert_nodup key p h)

theorem upsert_all_count_keep {s : List α} (ps : List α) {k : String}
    (h : NodupKeys key s) (hone : count_key key s k = 1) :
    count_key key (upsert_all key s ps) k = 1 := by
  induction ps generalizing s with
  | nil => exact hone
  | cons p rest ih =>
    apply ih (upsert_nodup key p h)
    by_cases hk : k = key p
    · rw [hk, upsert_count_self key p (h (key p))]
    · rw [upsert_count_other key p hk]
      exact hone

theorem upsert_all_count_mem {s : List α} {ps : List α} {p : α}
    (h : NodupKeys key s) (hp : p ∈ ps) :
    count_key key (upsert_all key s ps) (key p) = 1 := by
  induction ps generalizing s with
  | nil => simp at hp
  | cons p0 rest ih =>
    rcases List.mem_cons.1 hp with hp | hp
    · subst hp
      exact upsert_all_count_keep key rest (upsert_nodup key p h)
        (upsert_count_self key p (h (key p)))
    · exact ih (upsert_nodup key p0 h) hp

theorem mem_upsert_all {s : List α} {ps : List α} {q : α}
    (h : q ∈ upsert_all key s ps) : q ∈ s ∨ q ∈ ps := by
  induction ps generalizing s with
  | nil => exact Or.inl h
  | cons p0 rest ih =>
    rcases ih h with h | h
    · rcases mem_upsert key h with h | h
      · exact Or.inr (h ▸ List.mem_cons_self p0 rest)
      · exact Or.inl h
    · exact Or.inr (List.mem_cons_of_mem p0 h)

theorem upsert_all_unique {s : List α} {ps : List α} {p q : α}
    (h : NodupKeys key s) (hnd : (ps.map key).Nodup) (hp : p ∈ ps)
    (hq : q ∈ upsert_all key s ps) (hk : key q = key p) : q = p := by
  induction ps generalizing s with
  | nil => simp at hp
  | cons p0 rest ih =>
    rw [List.map_cons, List.nodup_cons] at hnd
    have hq' : q ∈ upsert_all key (upsert_by key p0 s) rest := hq
    rcases List.mem_cons.1 hp with hp | hp
    · subst hp
      rcases mem_upsert_all key hq' with hq2 | hq2
      · exact upsert_unique key h hq2 hk
      · exfalso
        exact hnd.1 (hk ▸ List.mem_map_of_mem key hq2)
    · exact ih (upsert_nodup key p0 h) hnd.2 hp hq'

theorem upsert_all_replay {s : List α} (ps : List α)
    (h : ∀ p ∈ ps, (∃ q ∈ s, key q = key p) ∧ (∀ q ∈ s, key q = key p → q = p)) :
    upsert_all key s ps = s := by
  induction ps with
  | nil => rfl
  | cons p0 rest ih =>
    have h0 := h p0 (List.mem_cons_self p0 rest)
    have hstep : upsert_by key p0 s = s := upsert_eq_self key h0.1 h0.2
    show upsert_all key (upsert_by key p0 s) rest = s
    rw [hstep]
    exact ih (fun p hp => h p (List.mem_cons_of_mem p0 hp))

theorem add_skip_of_present {s : List α} {e : α}
    (h : ∃ q ∈ s, key q = key e) : add_skip key s e = s := by
  rw [add_skip, if_pos]
  obtain ⟨q, hq, hk⟩ := h
  exact List.any_eq_true.2 ⟨q, hq, by simpa using hk⟩

theorem presence_add_skip (s : List α) (e : α) :
    ∃ q ∈ add_skip key s e, key q = key e := by
  rw [add_skip]
  split
  · next h =>
    obtain ⟨q, hq, hk⟩ := List.any_eq_true.1 h
    exact ⟨q, hq, by simpa using hk⟩
  · exact ⟨e, List.mem_append_right s (List.mem_singleton_self e), rfl⟩

theorem presence_mono_add_skip {s : List α} {k : String} (e : α)
    (h : ∃ q ∈ s, key q = k) : ∃ q ∈ add_skip key s e, key q = k := by
  obtain ⟨q, hq, hk⟩ := h
  rw [add_skip]
  split
  · exact ⟨q, hq, hk⟩
  · exact ⟨q, List.mem_append_left _ hq, hk⟩

theorem presence_mono_add_skip_all {s : List α} {k : String} (es : List α)
    (h : ∃ q ∈ s, key q = k) : ∃ q ∈ add_skip_all key s es, key q = k := by
  induction es generalizing s with
  | nil => exact h
  | cons e rest ih => exact ih (presence_mono_add_skip key e h)

theorem add_skip_all_presence {s : List α} {es : List α} {e : α}
    (he : e ∈ es) : ∃ q ∈ add_skip_all key s es, key q = key e := by
  induction es generalizing s with
  | nil => simp at he
  | cons e0 rest ih =>
    rcases List.mem_cons.1 he with he | he
    · subst he
      exact presence_mono_add_skip_all key rest (presence_add_skip key s e)
    · exact ih he

theorem add_skip_all_replay {s : List α} (es : List α)
    (h : ∀ e ∈ es, ∃ q ∈ s, key q = key e) : add_skip_all key s es = s := by
  induction es with
  | nil => rfl
  | cons e0 rest ih =>
    have hstep : add_skip key s e0 = s :=
      add_skip_of_present key (h e0 (List.mem_cons_self e0 rest))
    show add_skip_all key (add_skip key s e0) rest = s
    rw [hstep]
    exact ih (fun e he => h e (List.mem_cons_of_mem e0 he))

theorem add_skip_count_self {s : List α} (e : α)
    (h : count_key key s (key e) ≤ 1) :
    count_key key (add_skip key s e) (key e) = 1 := by
  rw [add_skip]
  split
  · next hp =>
    obtain ⟨q, hq, hk⟩ := List.any_eq_true.1 hp
    have := count_pos_of_mem key hq
    rw [show key q = key e from by simpa using hk] at this
    omega
  · next hp =>
    have hz : count_key key s (key e) = 0 := by
      by_contra hnz
      have : 1 ≤ count_key key s (key e) := by omega
      obtain ⟨q, hq, hk⟩ := count_pos_exists key this
      exact hp (List.any_eq_true.2 ⟨q, hq, by simpa using hk⟩)
    have hsplit : count_key key (s ++ [e]) (key e)
        = count_key key s (key e) + count_key key [e] (key e) := by
      simp [count_key, List.filter_append]
    rw [hsplit, hz]
    simp [count_key]

theorem add_skip_count_other {s : List α} (e : α) {k : String}
    (hk : k ≠ key e) :
    count_key key (add_skip key s e) k = count_key key s k := by
  rw [add_skip]
  split
  · rfl
  · have hsplit : count_key key (s ++ [e]) k
        = count_key key s k + count_key key [e] k := by
      simp [count_key, List.filter_append]
    rw [hsplit]
    have hzero : count_key key [e] k = 0 := by
      simp [count_key, List.filter_singleton, Ne.symm hk]
    rw [hzero]
    omega

theorem add_skip_nodup {s : List α} (e : α) (h : NodupKeys key s) :
    NodupKeys key (add_skip key s e) := by
  intro k
  by_cases hk : k = key e
  · rw [hk, add_skip_count_self key e (h (key e))]
  · rw [add_skip_count_other key e hk]
    exact h k

theorem add_skip_all_count_keep {s : List α} (es : List α) {k : String}
    (h : NodupKeys key s) (hone : count_key key s k = 1) :
    count_key key (add_skip_all key s es) k = 1 := by
  induction es generalizing s with
  | nil => exact hone
  | cons e rest ih =>
    apply ih (add_skip_nodup key e h)
    by_cases hk : k = key e
    · rw [hk, add_skip_count_self key e (h (key e))]
    · rw [add_skip_count_other key e hk]
      exact hone

theorem add_skip_all_count_mem {s : List α} {es : List α} {e : α}
    (h : NodupKeys key s) (he : e ∈ es) :
    count_key key (add_skip_all key s es) (key e) = 1 := by
  induction es generalizing s with
  | nil => simp at he
  | cons e0 rest ih =>
    rcases List.mem_cons.1 he with he | he
    · subst he
      exact add_skip_all_count_keep key rest (add_skip_nodup key e h)
        (add_skip_count_self key e (h (key e)))
    · exact ih (add_skip_nodup key e0 h) he

end KeyedStoreLemmas

/-! ### Add-chunks idempotence (C5) -/

theorem qdrant_build_points_key_mem {Emb : Type} (embed : String → Emb)
    (uuid_of : String → String) (document_id user_id : Int) :
    ∀ (chunks : List String) (j i : Nat), i < chunks.length →
      ∃ p ∈ qdrant_build_points embed uuid_of document_id user_id j chunks,
        p.id = uuid_of (string_key user_id document_id (j + i)) := by
  intro chunks
  induction chunks with
  | nil => intro j i h; simp at h
  | cons c rest ih =>
    intro j i h
    cases i with
    | zero =>
      refine ⟨_, List.mem_cons_self _ _, ?_⟩
      simp [qdrant_build_points]
    | succ n =>
      obtain ⟨p, hp, hid⟩ := ih (j + 1) n (by simp at h; omega)
      refine ⟨p, List.mem_cons_of_mem _ hp, ?_⟩
      rw [hid]
      have harith : j + 1 + n = j + (n + 1) := by omega
      rw [harith]

theorem chroma_build_entries_key_mem {Emb : Type} (embed : String → Emb)
    (document_id user_id : Int) :
    ∀ (chunks : List String) (j i : Nat), i < chunks.length →
      ∃ e ∈ chroma_build_entries embed document_id user_id j chunks,
        e.id = string_key user_id document_id (j + i) := by
  intro chunks
  induction chunks with
  | nil => intro j i h; simp at h
  | cons c rest ih =>
    intro j i h
    cases i with
    | zero =>
      refine ⟨_, List.mem_cons_self _ _, ?_⟩
      simp [chroma_build_entries]
    | succ n =>
      obtain ⟨e, he, hid⟩ := ih (j + 1) n (by simp at h; omega)
      refine ⟨e, List.mem_cons_of_mem _ he, ?_⟩
      rw [hid]
      have harith : j + 1 + n = j + (n + 1) := by omega
      rw [harith]

/-- C5: re-adding the same chunks under the same document and user is
idempotent on both backends.  For Qdrant (upsert semantics, assuming the
stored ids are duplicate-free and the hash-derived UUIDs of the batch are
pairwise distinct), the second `add_chunks` call leaves the store
literally unchanged, and each deterministic key
`user_{u}_doc_{d}_chunk_{i}` maps (through `uuid_of`) to exactly one
stored point.  For Chroma 0.4.x (`add` ignores existing ids), the second
call likewise leaves the store unchanged and each key has exactly one
entry; with identical chunks, skipping and overwriting produce the same
store, so neither backend duplicates or errors. -/
theorem add_chunks_idempotent {Emb : Type} (embed : String → Emb)
    (uuid_of : String → String) (qstore : List (QdrantPoint Emb))
    (cstore : List (ChromaEntry Emb)) (chunks : List String)
    (document_id user_id : Int)
    (hq : NodupKeys QdrantPoint.id qstore)
    (hids : ((qdrant_build_points embed uuid_of document_id user_id 0
        chunks).map QdrantPoint.id).Nodup)
    (hc : NodupKeys ChromaEntry.id cstore) :
    (qdrant_add_chunks embed uuid_of
        (qdrant_add_chunks embed uuid_of qstore chunks document_id user_id)
        chunks document_id user_id
      = qdrant_add_chunks embed uuid_of qstore chunks document_id user_id) ∧
    (∀ i < chunks.length,
      count_key QdrantPoint.id
        (qdrant_add_chunks embed uuid_of qstore chunks document_id user_id)
        (uuid_of (string_key user_id document_id i)) = 1) ∧
    (chroma_add_chunks embed
        (chroma_add_chunks embed cstore chunks document_id user_id)
        chunks document_id user_id
      = chroma_add_chunks embed cstore chunks document_id user_id) ∧
    (∀ i < chunks.length,
      count_key ChromaEntry.id
        (chroma_add_chunks embed cstore chunks document_id user_id)
        (string_key user_id document_id i) = 1) := by
  by_cases hempty : chunks.isEmpty
  · have hnil : chunks = [] := by
      cases chunks with
      | nil => rfl
      | cons c rest => simp at hempty
    subst hnil
    refine ⟨?_, ?_, ?_, ?_⟩
    · simp [qdrant_add_chunks]
    · intro i hi; simp at hi
    · simp [chroma_add_chunks]
    · intro i hi; simp at hi
  · have hne : ¬(chunks.isEmpty = true) := hempty
    refine ⟨?_, ?_, ?_, ?_⟩
    · rw [qdrant_add_chunks, if_neg hne]
      rw [qdrant_add_chunks, if_neg hne]
      apply upsert_all_replay
      intro p hp
      constructor
      · exact count_pos_exists QdrantPoint.id
          (by rw [upsert_all_count_mem QdrantPoint.id hq hp])
      · intro q hqmem hqk
        exact upsert_all_unique QdrantPoint.id hq hids hp hqmem hqk
    · intro i hi
      rw [qdrant_add_chunks, if_neg hne]
      obtain ⟨p, hp, hid⟩ :=
        qdrant_build_points_key_mem embed uuid_of document_id user_id chunks 0 i hi
      rw [show (0 : Nat) + i = i by omega] at hid
      rw [← hid]
      exact upsert_all_count_mem QdrantPoint.id hq hp
    · rw [chroma_add_chunks, if_neg hne]
      rw [chroma_add_chunks, if_neg hne]
      apply add_skip_all_replay
      intro e he
      exact add_skip_all_presence ChromaEntry.id he
    · intro i hi
      rw [chroma_add_chunks, if_neg hne]
      obtain ⟨e, he, hid⟩ :=
        chroma_build_entries_key_mem embed document_id user_id chunks 0 i hi
      rw [show (0 : Nat) + i = i by omega] at hid
      rw [← hid]
      exact add_skip_all_count_mem ChromaEntry.id hc he

/-- Witness for `add_chunks_idempotent`: two chunks, empty stores,
identity surrogate-id function. -/
theorem add_chunks_idempotent_witness :
    (qdrant_add_chunks (fun (_ : String) => ()) (fun s => s)
        (qdrant_add_chunks (fun _ => ()) (fun s => s) [] ["alpha", "beta"] 1 2)
        ["alpha", "beta"] 1 2
      = qdrant_add_chunks (fun _ => ()) (fun s => s) [] ["alpha", "beta"] 1 2) ∧
    (count_key QdrantPoint.id
        (qdrant_add_chunks (fun (_ : String) => ()) (fun s => s) []
          ["alpha", "beta"] 1 2)
        (string_key 2 1 0) = 1) ∧
    (chroma_add_chunks (fun (_ : String) => ())
        (chroma_add_chunks (fun _ => ()) [] ["alpha", "beta"] 1 2)
        ["alpha", "beta"] 1 2
      = chroma_add_chunks (fun _ => ()) [] ["alpha", "beta"] 1 2) ∧
    (count_key ChromaEntry.id
        (chroma_add_chunks (fun (_ : String) => ()) [] ["alpha", "beta"] 1 2)
        (string_key 2 1 1) = 1) := by
  have h := add_chunks_idempotent (fun (_ : String) => ()) (fun s => s)
    ([] : List (QdrantPoint Unit)) ([] : List (ChromaEntry Unit))
    ["alpha", "beta"] 1 2
    (by intro k; simp [count_key])
    (by decide)
    (by intro k; simp [count_key])
  exact ⟨h.1, h.2.1 0 (by decide), h.2.2.1, h.2.2.2 1 (by decide)⟩

/-! ### Relational records and task state (`app/database/models.py`) -/

/-- The `User` row fields the tasks read and write. -/
structure UserRec where
  id : Int
  document_count : Int
  query_count_today : Int
  last_query_date : Option Nat
deriving DecidableEq

/-- The `Document` row. -/
structure DocumentRec where
  id : Int
  filename : String
  content_hash : String
  chunk_count : Int
  file_size : Int
  user_id : Int
deriving DecidableEq

/-- The `QueryLog` row. -/
structure QueryLogRec where
  id : Int
  user_id : Int
  question : String
  answer : String
  response_time : Int
  chunks_used : Int
deriving DecidableEq

/-- The relational database the Celery tasks operate on.
`next_document_id` / `next_query_log_id` model the autoincrement primary
keys.  Calendar dates (`last_query_date`, "today") are modelled as day
numbers. -/
structure TaskDB where
  users : List UserRec
  documents : List DocumentRec
  query_logs : List QueryLogRec
  next_document_id : Int
  next_query_log_id : Int
deriving DecidableEq

/-! ### Document ingestion (`app/tasks/document_tasks.py`) -/

/-- The result dict of `process_document_async`; keys that only some
branches set are `Option`s. -/
structure ProcResult where
  status : String
  message : String
  document_id : Option Int
  chunk_count : Option Int
  filename : Option String
  content_hash : Option String
deriving DecidableEq

/-- `process_document_async` (document_tasks.py, lines 37-149).

The vector store is abstract (`V`, written through `add_chunks_fn`);
`extract_text` abstracts `process_document`'s extension dispatch and PDF
or TXT decoding (`Except` = its `ValueError`s); `hash_fn` abstracts
`calculate_hash` (SHA-256 of the raw bytes).  The outer `Option` carries
the chunker's fuel (`none` = the chunking loop diverged); the `Except`
models the exception the task re-raises after marking `FAILURE`. -/
def process_document_async {V : Type}
    (add_chunks_fn : V → List String → Int → Int → V)
    (extract_text : String → List Nat → Except String String)
    (hash_fn : List Nat → String)
    (max_documents_per_user max_chunks_per_document : Int)
    (chunk_size overlap : Int) (fuel : Nat)
    (db : TaskDB) (vstore : V)
    (user_id : Int) (filename : String) (file_content : List Nat) :
    Option (Except String (ProcResult × TaskDB × V)) :=
  match db.users.find? (fun u => u.id == user_id) with
  | none => some (.error "User not found")
  | some user =>
    if user.document_count ≥ max_documents_per_user then
      some (.error s!"Maximum document limit ({max_documents_per_user}) reached")
    else
      match extract_text filename file_content with
      | .error e => some (.error e)
      | .ok text_content =>
        match db.documents.find?
            (fun d => d.content_hash == hash_fn file_content
              && d.user_id == user_id) with
        | some existing_doc =>
          some (.ok
            ({ status := "duplicate"
               message := "Document with identical content already exists"
               document_id := some existing_doc.id
               chunk_count := none, filename := none, content_hash := none },
             db, vstore))
        | none =>
          match split_text_into_chunks text_content.data chunk_size overlap fuel with
          | none => none
          | some chunk_lists =>
            have chunks : List String := chunk_lists.map (fun l => String.mk l)
            if (chunks.length : Int) > max_chunks_per_document then
              some (.error
                s!"Document too large. Maximum {max_chunks_per_document} chunks allowed")
            else
              have document : DocumentRec :=
                { id := db.next_document_id, filename := filename
                  content_hash := hash_fn file_content
                  chunk_count := chunks.length
                  file_size := file_content.length, user_id := user_id }
              have documents1 := db.documents ++ [document]
              have new_count :=
                (documents1.filter (fun d => d.user_id == user_id)).length
              have n := chunks.length
              some (.ok
                ({ status := "success"
                   message := s!"Document processed successfully with {n} chunks"
                   document_id := some document.id
                   chunk_count := some (n : Int)
                   filename := some filename
                   content_hash := some (hash_fn file_content) },
                 { db with
                    documents := documents1
                    users := db.users.map (fun u =>
                      if u.id == user_id then
                        { u with document_count := (new_count : Int) }
                      else u)
                    next_document_id := db.next_document_id + 1 },
                 add_chunks_fn vstore chunks document.id user_id))

/-- C6: when a document with the same content hash already exists for the
same user (and the user exists with capacity and extraction succeeds, so
control reaches the duplicate check), the ingestion job short-circuits
with a `duplicate` success result referencing the first matching existing
record, and both the database and the vector store are returned
unchanged — no record is created and the user's stored document count is
untouched. -/
theorem process_document_duplicate_short_circuit {V : Type}
    (add_chunks_fn : V → List String → Int → Int → V)
    (extract_text : String → List Nat → Except String String)
    (hash_fn : List Nat → String)
    (max_documents_per_user max_chunks_per_document : Int)
    (chunk_size overlap : Int) (fuel : Nat)
    (db : TaskDB) (vstore : V)
    (user_id : Int) (filename : String) (file_content : List Nat)
    (user : UserRec) (existing : DocumentRec) (text : String)
    (hu : db.users.find? (fun u => u.id == user_id) = some user)
    (hcap : user.document_count < max_documents_per_user)
    (hext : extract_text filename file_content = .ok text)
    (hdup : db.documents.find?
        (fun d => d.content_hash == hash_fn file_content
          && d.user_id == user_id) = some existing) :
    process_document_async add_chunks_fn extract_text hash_fn
        max_documents_per_user max_chunks_per_document chunk_size overlap
        fuel db vstore user_id filename file_content
      = some (.ok
          ({ status := "duplicate"
             message := "Document with identical content already exists"
             document_id := some existing.id
             chunk_count := none, filename := none, content_hash := none },
           db, vstore)) := by
  unfold process_document_async
  rw [hu]
  dsimp only
  rw [if_neg (not_le.mpr hcap), hext]
  dsimp only
  rw [hdup]

/-- Witness for `process_document_duplicate_short_circuit`: user `1`
already holds a document with hash `"h"`; uploading content hashing to
`"h"` again returns `duplicate` with the existing id `5` and unchanged
state. -/
theorem process_document_duplicate_short_circuit_witness :
    process_document_async (fun (v : Unit) _ _ _ => v)
        (fun _ _ => .ok "text") (fun _ => "h") 100 1000 1000 200 1
        { users := [{ id := 1, document_count := 1, query_count_today := 0
                      last_query_date := none }]
          documents := [{ id := 5, filename := "a.txt", content_hash := "h"
                          chunk_count := 1, file_size := 3, user_id := 1 }]
          query_logs := [], next_document_id := 6, next_query_log_id := 1 }
        () 1 "a.txt" [1, 2, 3]
      = some (.ok
          ({ status := "duplicate"
             message := "Document with identical content already exists"
             document_id := some 5
             chunk_count := none, filename := none, content_hash := none },
           { users := [{ id := 1, document_count := 1, query_count_today := 0
                         last_query_date := none }]
             documents := [{ id := 5, filename := "a.txt", content_hash := "h"
                             chunk_count := 1, file_size := 3, user_id := 1 }]
             query_logs := [], next_document_id := 6, next_query_log_id := 1 },
           ())) :=
  process_document_duplicate_short_circuit (fun v _ _ _ => v)
    (fun _ _ => .ok "text") (fun _ => "h") 100 1000 1000 200 1 _ ()
    1 "a.txt" [1, 2, 3]
    { id := 1, document_count := 1, query_count_today := 0
      last_query_date := none }
    { id := 5, filename := "a.txt", content_hash := "h"
      chunk_count := 1, file_size := 3, user_id := 1 }
    "text" (by decide) (by decide) rfl (by decide)

/-! ### Question answering (`app/tasks/qa_tasks.py`) -/

/-- The only exception class `answer_question_async` itself raises is the
built-in `ValueError` (used both for the `"User not found"` validation
failure and for the rate limit). -/
inductive PyError where
  | valueError (msg : String)
deriving DecidableEq

/-- The Python class name of a raised error. -/
def py_error_class : PyError → String
  | .valueError _ => "ValueError"

/-- The task decorator `autoretry_for=(Exception,)` (qa_tasks.py,
line 27): every raised exception — `ValueError` included — matches and is
retried (with `max_retries=2`). -/
def answer_question_autoretry : PyError → Bool
  | _ => true

/-- The result dict of `answer_question_async`. -/
structure QAResult where
  status : String
  message : Option String
  answer : Option String
  chunks_used : Option Int
  query_id : Option Int
deriving DecidableEq

/-- `answer_question_async` (qa_tasks.py, lines 32-145).

`llm` abstracts `qa_service.llm.generate_answer`; `search` abstracts
`vector_store.search_similar_chunks` (content strings of the hits);
`today` is `datetime.utcnow().date()` as a day number; `response_time`
(wall clock) is modelled as `0`.  An uncommitted in-memory mutation of
the ORM `user` object is discarded when the session closes without
`commit()`, so early returns leave the database unchanged. -/
def answer_question_async
    (llm : String → List String → String)
    (search : String → Int → Nat → List String)
    (rate_limit_enabled : Bool) (max_queries_per_hour : Int) (today : Nat)
    (db : TaskDB) (user_id : Int) (question : String)
    (context : Option (List String)) :
    Except PyError (QAResult × TaskDB) :=
  match db.users.find? (fun u => u.id == user_id) with
  | none => .error (.valueError "User not found")
  | some user =>
    match
      (if rate_limit_enabled then
        match user.last_query_date with
        | some d =>
          if d = today then
            (if user.query_count_today ≥ max_queries_per_hour then
              .error (.valueError "Rate limit exceeded. Try again later.")
            else .ok user)
          else
            .ok { user with query_count_today := 0, last_query_date := some today }
        | none =>
          .ok { user with query_count_today := 0, last_query_date := some today }
      else (.ok user : Except PyError UserRec)) with
    | .error e => .error e
    | .ok user1 =>
      -- `if not context:` — None and [] are falsy, triggering retrieval
      have context1 : List String :=
        match context with
        | none => search question user_id 5
        | some [] => search question user_id 5
        | some ctx => ctx
      if context1.isEmpty then
        .ok
          ({ status := "no_context"
             message := some "No relevant documents found. Please upload documents first."
             answer := some "I don't have any relevant information to answer your question. Please upload some documents first."
             chunks_used := none, query_id := none },
           db)
      else
        have answer := llm question context1
        have log : QueryLogRec :=
          { id := db.next_query_log_id, user_id := user_id
            question := question, answer := answer
            response_time := 0, chunks_used := (context1.length : Int) }
        have user2 : UserRec :=
          { user1 with query_count_today := user1.query_count_today + 1
                       last_query_date := some today }
        .ok
          ({ status := "success", message := none, answer := some answer
             chunks_used := some (context1.length : Int)
             query_id := some log.id },
           { db with
              users := db.users.map (fun u => if u.id == user_id then user2 else u)
              query_logs := db.query_logs ++ [log]
              next_query_log_id := db.next_query_log_id + 1 })

theorem find_map_update {l : List UserRec} {user : UserRec} {uid : Int}
    (h : l.find? (fun u => u.id == uid) = some user) (user2 : UserRec)
    (hid : user2.id = user.id) :
    (l.map (fun u => if u.id == uid then user2 else u)).find?
      (fun u => u.id == uid) = some user2 := by
  induction l with
  | nil => simp at h
  | cons a t ih =>
    by_cases ha : (a.id == uid) = true
    · have hau : a = user := by
        have h2 := h
        simp only [List.find?_cons, ha] at h2
        simpa using h2
      have hu2 : (user2.id == uid) = true := by
        rw [hid, ← hau]
        exact ha
      rw [List.map_cons, if_pos ha]
      simp only [List.find?_cons, hu2]
    · have ha2 : (a.id == uid) = false := by simpa using ha
      rw [List.find?_cons] at h
      rw [ha2] at h
      rw [List.map_cons, if_neg ha]
      rw [List.find?_cons, ha2]
      exact ih h

/-- C7 counterexample: a user at the limit (100 queries today, today's
date stored) receives a plain `ValueError` — the same exception class as
the `"User not found"` validation failure, distinguishable only by its
message — and the task's `autoretry_for=(Exception,)` policy *does* match
it (it is retried).  There is no distinct `RateLimitError` anywhere in
the code. -/
theorem answer_question_rate_limit_counterexample :
    answer_question_async (fun _ _ => "ans") (fun _ _ _ => []) true 100 5
        { users := [{ id := 1, document_count := 0, query_count_today := 100
                      last_query_date := some 5 }]
          documents := [], query_logs := []
          next_document_id := 1, next_query_log_id := 1 }
        1 "q" (some ["c"])
      = .error (.valueError "Rate limit exceeded. Try again later.") ∧
    answer_question_autoretry
        (.valueError "Rate limit exceeded. Try again later.") = true ∧
    py_error_class (.valueError "Rate limit exceeded. Try again later.")
      = py_error_class (.valueError "User not found") := by
  refine ⟨rfl, rfl, rfl⟩

/-- C7 amended: at the limit on the same stored day the job raises a
generic `ValueError` (message `"Rate limit exceeded. Try again later."`),
the same exception class as validation errors, and the autoretry policy
retries it; with a stored last-query date from an earlier day the counter
is reset to zero and the question proceeds, ending with
`query_count_today = 1` and `last_query_date = today` after the
successful query. -/
theorem answer_question_rate_limit_behavior
    (llm : String → List String → String)
    (search : String → Int → Nat → List String)
    (max_queries_per_hour : Int) (today : Nat) (db : TaskDB)
    (user_id : Int) (question : String) (c : String)
    (cs : List String) (user : UserRec)
    (hu : db.users.find? (fun u => u.id == user_id) = some user) :
    (user.last_query_date = some today →
      user.query_count_today ≥ max_queries_per_hour →
      answer_question_async llm search true max_queries_per_hour today db
          user_id question (some (c :: cs))
        = .error (.valueError "Rate limit exceeded. Try again later.") ∧
      answer_question_autoretry
        (.valueError "Rate limit exceeded. Try again later.") = true) ∧
    (∀ d, user.last_query_date = some d → d ≠ today →
      ∃ db1,
        answer_question_async llm search true max_queries_per_hour today db
            user_id question (some (c :: cs))
          = .ok
            ({ status := "success", message := none
               answer := some (llm question (c :: cs))
               chunks_used := some ((c :: cs).length : Int)
               query_id := some db.next_query_log_id }, db1) ∧
        db1.users.find? (fun u => u.id == user_id)
          = some { user with query_count_today := 1
                             last_query_date := some today }) := by
  constructor
  · intro hdate hcount
    refine ⟨?_, rfl⟩
    unfold answer_question_async
    rw [hu]
    dsimp only
    rw [hdate]
    dsimp only
    rw [if_pos (show today = today from rfl), if_pos hcount]
    rfl
  · intro d hdate hne
    refine ⟨{ db with
        users := db.users.map (fun u =>
          if u.id == user_id then
            { id := user.id, document_count := user.document_count
              query_count_today := 0 + 1, last_query_date := some today }
          else u)
        query_logs := db.query_logs ++
          [{ id := db.next_query_log_id, user_id := user_id
             question := question, answer := llm question (c :: cs)
             response_time := 0
             chunks_used := ((c :: cs).length : Int) }]
        next_query_log_id := db.next_query_log_id + 1 }, ?_, ?_⟩
    · unfold answer_question_async
      rw [hu]
      dsimp only
      rw [hdate]
      dsimp only
      rw [if_neg hne]
      rfl
    · exact find_map_update hu _ rfl

/-- Witness for `answer_question_rate_limit_behavior`: both branches at
concrete states (counter 100 of 100 with today's date; counter 100 with
yesterday's date resetting and proceeding). -/
theorem answer_question_rate_limit_behavior_witness :
    (answer_question_async (fun _ _ => "ans") (fun _ _ _ => []) true 100 5
        { users := [{ id := 2, document_count := 0, query_count_today := 100
                      last_query_date := some 5 }]
          documents := [], query_logs := []
          next_document_id := 1, next_query_log_id := 1 }
        2 "q" (some ["c"])
      = .error (.valueError "Rate limit exceeded. Try again later.") ∧
     answer_question_autoretry
       (.valueError "Rate limit exceeded. Try again later.") = true) ∧
    (∃ db1,
      answer_question_async (fun _ _ => "ans") (fun _ _ _ => []) true 100 5
          { users := [{ id := 2, document_count := 0, query_count_today := 100
                        last_query_date := some 4 }]
            documents := [], query_logs := []
            next_document_id := 1, next_query_log_id := 1 }
          2 "q" (some ["c"])
        = .ok
          ({ status := "success", message := none, answer := some "ans"
             chunks_used := some ((["c"] : List String).length : Int)
             query_id := some 1 }, db1) ∧
      db1.users.find? (fun u => u.id == 2)
        = some { id := 2, document_count := 0, query_count_today := 1
                 last_query_date := some 5 }) := by
  constructor
  · exact (answer_question_rate_limit_behavior (fun _ _ => "ans")
      (fun _ _ _ => []) 100 5
      { users := [{ id := 2, document_count := 0, query_count_today := 100
                    last_query_date := some 5 }]
        documents := [], query_logs := []
        next_document_id := 1, next_query_log_id := 1 }
      2 "q" "c" []
      { id := 2, document_count := 0, query_count_today := 100
        last_query_date := some 5 }
      (by decide)).1 rfl (by decide)
  · exact (answer_question_rate_limit_behavior (fun _ _ => "ans")
      (fun _ _ _ => []) 100 5
      { users := [{ id := 2, document_count := 0, query_count_today := 100
                    last_query_date := some 4 }]
        documents := [], query_logs := []
        next_document_id := 1, next_query_log_id := 1 }
      2 "q" "c" []
      { id := 2, document_count := 0, query_count_today := 100
        last_query_date := some 4 }
      (by decide)).2 4 rfl (by decide)

/-! ### Document deletion (`app/tasks/document_tasks.py`, lines 156-194) -/

/-- The result dict of `delete_document_async`. -/
structure DeleteResult where
  status : String
  message : String
  document_id : Option Int
deriving DecidableEq

/-- `delete_document_async`.  The task wraps its whole body in
`try/except Exception` and returns a dict in every case, so the embedding
is a total function (it cannot raise).  The vector store is abstract
(`V`, written through `delete_chunks_fn`). -/
def delete_document_async {V : Type} (delete_chunks_fn : V → Int → Int → V)
    (db : TaskDB) (vstore : V) (document_id user_id : Int) :
    DeleteResult × TaskDB × V :=
  match db.documents.find?
      (fun d => d.id == document_id && d.user_id == user_id) with
  | none =>
    ({ status := "error", message := "Document not found"
       document_id := none }, db, vstore)
  | some doc =>
    have vstore1 := delete_chunks_fn vstore document_id user_id
    have documents1 := db.documents.filter (fun d => !(d.id == doc.id))
    have new_count := (documents1.filter (fun d => d.user_id == user_id)).length
    ({ status := "success", message := "Document deleted successfully"
       document_id := some document_id },
     { db with
        documents := documents1
        users := db.users.map (fun u =>
          if u.id == user_id then { u with document_count := (new_count : Int) }
          else u) },
     vstore1)

/-- C8 counterexample: for an absent document the job returns a result
whose `status` field is the string `"error"` — the payload is an
error-status result, not the claimed "non-error outcome" (it does,
however, return normally, and the state is unchanged). -/
theorem delete_document_not_found_counterexample :
    (delete_document_async (fun (v : Unit) _ _ => v)
        { users := [], documents := [], query_logs := []
          next_document_id := 1, next_query_log_id := 1 } () 1 1).1.status
      = "error" ∧
    delete_document_async (fun (v : Unit) _ _ => v)
        { users := [], documents := [], query_logs := []
          next_document_id := 1, next_query_log_id := 1 } () 1 1
      = ({ status := "error", message := "Document not found"
           document_id := none },
         { users := [], documents := [], query_logs := []
           next_document_id := 1, next_query_log_id := 1 }, ()) :=
  ⟨rfl, rfl⟩

/-- C8 amended: when no document with the given `document_id` and
`user_id` exists, `delete_document_async` completes normally — no
exception is raised (the embedding is total) and the Celery task
succeeds — returning the dict
`{"status": "error", "message": "Document not found"}` with the database
and vector store unchanged; nothing is deleted or modified. -/
theorem delete_document_not_found_behavior {V : Type}
    (delete_chunks_fn : V → Int → Int → V) (db : TaskDB) (vstore : V)
    (document_id user_id : Int)
    (h : db.documents.find?
        (fun d => d.id == document_id && d.user_id == user_id) = none) :
    delete_document_async delete_chunks_fn db vstore document_id user_id
      = ({ status := "error", message := "Document not found"
           document_id := none }, db, vstore) := by
  unfold delete_document_async
  rw [h]

/-- Witness for `delete_document_not_found_behavior`: deleting document
`9` of user `1` from a store holding only a document of user `2`. -/
theorem delete_document_not_found_behavior_witness :
    delete_document_async (fun (v : Unit) _ _ => v)
        { users := [{ id := 2, document_count := 1, query_count_today := 0
                      last_query_date := none }]
          documents := [{ id := 3, filename := "b.txt", content_hash := "g"
                          chunk_count := 1, file_size := 1, user_id := 2 }]
          query_logs := [], next_document_id := 4, next_query_log_id := 1 }
        () 9 1
      = ({ status := "error", message := "Document not found"
           document_id := none },
         { users := [{ id := 2, document_count := 1, query_count_today := 0
                       last_query_date := none }]
           documents := [{ id := 3, filename := "b.txt", content_hash := "g"
                           chunk_count := 1, file_size := 1, user_id := 2 }]
           query_logs := [], next_document_id := 4, next_query_log_id := 1 },
         ()) :=
  delete_document_not_found_behavior (fun v _ _ => v) _ () 9 1 (by decide)

/-! ### Task cancellation (`app/utils/task_monitor.py`, lines 134-151) -/

/-- The task metadata `track_user_task` stores under
`task_meta:{task_id}` (the fields `cancel_task` reads). -/
structure TaskMeta where
  user_id : Int
  task_type : String
deriving DecidableEq

/-- `self.redis_client.get(f"task_meta:{task_id}")` over a key-value
side-store modelled as an association list. -/
def lookup_task_meta (meta_store : List (String × TaskMeta))
    (task_id : String) : Option TaskMeta :=
  (meta_store.find? (fun kv => kv.1 == "task_meta:" ++ task_id)).map
    (fun kv => kv.2)

/-- `TaskMonitor.cancel_task`.  Result: `(return value, whether
`control.revoke` was issued)`.  Python's `if user_id:` is falsy for both
`None` and `0`, skipping the ownership check entirely; when the metadata
key is absent the check is also skipped and the task is revoked. -/
def cancel_task (meta_store : List (String × TaskMeta)) (task_id : String)
    (user_id : Option Int) : Bool × Bool :=
  match user_id with
  | none => (true, true)
  | some uid =>
    if uid ≠ 0 then
      match lookup_task_meta meta_store task_id with
      | some meta => if meta.user_id ≠ uid then (false, false) else (true, true)
      | none => (true, true)
    else (true, true)

/-- C9 counterexample: with a caller user id supplied but no stored
metadata for the task (ownership cannot be established), `cancel_task`
revokes the task anyway and returns `True` — the claim demands that it
not revoke and return `False`. -/
theorem cancel_task_no_metadata_counterexample :
    cancel_task [] "t1" (some 7) = (true, true) := rfl

/-- C9 amended: when metadata exists and records a different owner (and
the supplied id is non-zero, hence truthy), the task is not revoked and
`False` is returned; when the recorded owner matches, it is revoked with
`True`; but when the metadata is absent — ownership unestablishable —
the check is skipped and the task *is* revoked with `True` (likewise for
the falsy caller id `0`). -/
theorem cancel_task_ownership_behavior (meta_store : List (String × TaskMeta))
    (task_id : String) (uid : Int) (meta : TaskMeta) :
    (uid ≠ 0 → lookup_task_meta meta_store task_id = some meta →
      meta.user_id ≠ uid →
      cancel_task meta_store task_id (some uid) = (false, false)) ∧
    (uid ≠ 0 → lookup_task_meta meta_store task_id = some meta →
      meta.user_id = uid →
      cancel_task meta_store task_id (some uid) = (true, true)) ∧
    (lookup_task_meta meta_store task_id = none →
      cancel_task meta_store task_id (some uid) = (true, true)) ∧
    (cancel_task meta_store task_id (some 0) = (true, true)) := by
  refine ⟨?_, ?_, ?_, ?_⟩
  · intro hz hmeta hne
    unfold cancel_task
    dsimp only
    rw [if_pos hz, hmeta]
    dsimp only
    rw [if_pos hne]
  · intro hz hmeta heq
    unfold cancel_task
    dsimp only
    rw [if_pos hz, hmeta]
    dsimp only
    rw [if_neg (by simp [heq])]
  · intro hmeta
    unfold cancel_task
    dsimp only
    by_cases hz : uid ≠ 0
    · rw [if_pos hz, hmeta]
    · rw [if_neg hz]
  · unfold cancel_task
    dsimp only
    rw [if_neg (by simp)]

/-- Witness for `cancel_task_ownership_behavior`: a store recording task
`t1` as owned by user `3`, probed with callers `7`, `3`, an absent task
`t2`, and the falsy caller `0`. -/
theorem cancel_task_ownership_behavior_witness :
    cancel_task [("task_meta:t1", ⟨3, "qa"⟩)] "t1" (some 7) = (false, false) ∧
    cancel_task [("task_meta:t1", ⟨3, "qa"⟩)] "t1" (some 3) = (true, true) ∧
    cancel_task [("task_meta:t1", ⟨3, "qa"⟩)] "t2" (some 7) = (true, true) ∧
    cancel_task [("task_meta:t1", ⟨3, "qa"⟩)] "t1" (some 0) = (true, true) :=
  ⟨(cancel_task_ownership_behavior [("task_meta:t1", ⟨3, "qa"⟩)] "t1" 7
      ⟨3, "qa"⟩).1 (by decide) (by decide) (by decide),
   (cancel_task_ownership_behavior [("task_meta:t1", ⟨3, "qa"⟩)] "t1" 3
      ⟨3, "qa"⟩).2.1 (by decide) (by decide) rfl,
   (cancel_task_ownership_behavior [("task_meta:t1", ⟨3, "qa"⟩)] "t2" 7
      ⟨3, "qa"⟩).2.2.1 (by decide),
   (cancel_task_ownership_behavior [("task_meta:t1", ⟨3, "qa"⟩)] "t1" 0
      ⟨3, "qa"⟩).2.2.2⟩

/-! ### TXT extraction (`app/utils/document_processor.py`, lines 23-34) -/

/-- The encodings `extract_text_from_txt` tries, in order. -/
inductive TxtEncoding where
  | utf8
  | latin1
  | cp1252
deriving DecidableEq

/-- Latin-1 (ISO-8859-1) decoding: every byte `b` maps to the code point
`U+00b` — total on all byte sequences.  (Each value is below `256`, a
valid scalar, so `Char.ofNat` is exact here.) -/
def latin1_decode (content : List (Fin 256)) : String :=
  ⟨content.map (fun b => Char.ofNat b.val)⟩

/-- The outcome of `bytes.decode(encoding)` for this call: the UTF-8 and
cp1252 codecs are external and abstracted as oracle outcomes (`none` =
`UnicodeDecodeError`), while latin-1 is modelled exactly — it never
fails. -/
def decode_with (utf8_result cp1252_result : Option String) :
    TxtEncoding → List (Fin 256) → Option String
  | .utf8, _ => utf8_result
  | .latin1, content => some (latin1_decode content)
  | .cp1252, _ => cp1252_result

/-- The `for encoding in ['latin-1', 'cp1252']` fallback loop: first
encoding that decodes wins. -/
def try_encodings (utf8_result cp1252_result : Option String)
    (content : List (Fin 256)) : List TxtEncoding → Option String
  | [] => none
  | e :: rest =>
    match decode_with utf8_result cp1252_result e content with
    | some s => some s
    | none => try_encodings utf8_result cp1252_result content rest

/-- `extract_text_from_txt`: try UTF-8, then latin-1, then cp1252; raise
`ValueError("Unable to decode text file")` when all fail. -/
def extract_text_from_txt (utf8_result cp1252_result : Option String)
    (content : List (Fin 256)) : Except String String :=
  match decode_with utf8_result cp1252_result .utf8 content with
  | some s => .ok s
  | none =>
    match try_encodings utf8_result cp1252_result content
        [.latin1, .cp1252] with
    | some s => .ok s
    | none => .error "Unable to decode text file"

/-- C10: `extract_text_from_txt` is total over all byte inputs and all
codec outcomes: latin-1 decoding succeeds for every byte sequence, so
the function always returns `.ok` and the final
`ValueError("Unable to decode text file")` branch is unreachable. -/
theorem extract_text_from_txt_total (utf8_result cp1252_result : Option String)
    (content : List (Fin 256)) :
    (∃ s, extract_text_from_txt utf8_result cp1252_result content = .ok s) ∧
    (∀ msg, extract_text_from_txt utf8_result cp1252_result content
      ≠ .error msg) := by
  cases utf8_result with
  | some s =>
    refine ⟨⟨s, rfl⟩, ?_⟩
    intro msg h
    simp [extract_text_from_txt, decode_with] at h
  | none =>
    refine ⟨⟨latin1_decode content, rfl⟩, ?_⟩
    intro msg h
    simp [extract_text_from_txt, decode_with, try_encodings] at h

end QAService
